import Mathlib

/-!
# EclipseMenu: recorder hand-off and string utilities

A shallow embedding of

* `src/utils.cpp`: `eclipse::utils::formatTime`, `eclipse::utils::matchesStringFuzzy`;
* `src/modules/recorder/recorder.cpp`: `Recorder::start`, `stop`, `captureFrame`,
  `recordThread`, `stopAudio`.

Definitions come first, theorems afterwards.
-/

namespace eclipse.utils

/-! ## formatTime (utils.cpp, lines 60-69) -/

/-- The C++ conversion `static_cast<int>(x)` of a real value: truncation toward zero.
The time is taken as an exact rational; values outside the range of `int` are
outside the model. -/
def truncToInt (x : ℚ) : Int := x.num.tdiv x.den

/-- Left-pad a digit string with `'0'` up to `width` characters. -/
def padZeros (width : Nat) (digits : String) : String :=
  String.mk (List.replicate (width - digits.length) '0') ++ digits

/-- The fmt conversions `{}` (width 0) and `{:0Nd}` (width N) of an `int`: decimal
digits, zero padded to the width, the sign counted in the width. -/
def fmtInt (width : Nat) (i : Int) : String :=
  if i < 0 then "-" ++ padZeros (width - 1) (Nat.repr i.natAbs)
  else padZeros width (Nat.repr i.natAbs)

/-- `eclipse::utils::formatTime`. The C++ operator `%` on `int` is `Int.tmod`. -/
def formatTime (time : ℚ) : String :=
  let hours := truncToInt (time / 3600)
  let minutes := truncToInt (time / 60)
  let seconds := (truncToInt time).tmod 60
  let millis := (truncToInt (time * 1000)).tmod 1000
  if hours > 0 then
    fmtInt 0 hours ++ ":" ++ fmtInt 2 minutes ++ ":" ++ fmtInt 2 seconds ++ "." ++ fmtInt 3 millis
  else if minutes > 0 then
    fmtInt 0 minutes ++ ":" ++ fmtInt 2 seconds ++ "." ++ fmtInt 3 millis
  else
    fmtInt 0 seconds ++ "." ++ fmtInt 3 millis

/-- The clock rendering as the specification words it, for a non-negative time:
`H = floor(t/3600)`, `M = floor(t/60) mod 60`, `S = floor(t) mod 60`,
`ms = floor(t*1000) mod 1000`; `H:MM:SS.mmm` when `H > 0`, `M:SS.mmm` when `H = 0`
and `M > 0`, `S.mmm` otherwise. -/
def clockFields (t : ℚ) : String :=
  let H := ⌊t / 3600⌋.toNat
  let M := ⌊t / 60⌋.toNat % 60
  let S := ⌊t⌋.toNat % 60
  let ms := ⌊t * 1000⌋.toNat % 1000
  if H > 0 then
    Nat.repr H ++ ":" ++ padZeros 2 (Nat.repr M) ++ ":" ++ padZeros 2 (Nat.repr S) ++ "."
      ++ padZeros 3 (Nat.repr ms)
  else if M > 0 then
    Nat.repr M ++ ":" ++ padZeros 2 (Nat.repr S) ++ "." ++ padZeros 3 (Nat.repr ms)
  else
    Nat.repr S ++ "." ++ padZeros 3 (Nat.repr ms)

/-! ## matchesStringFuzzy (utils.cpp, lines 198-206) -/

/-- The function `std::toupper` in the "C" locale. -/
def toupper (c : Char) : Char := c.toUpper

/-- The comparison lambda passed to `std::ranges::search`. -/
def fuzzyEq (ch1 ch2 : Char) : Bool := toupper ch1 == toupper ch2

/-- How the inner loop of `std::ranges::search` ends for one start position. -/
inductive InnerResult where
  /-- The needle iterator reached its end: the needle matches here. -/
  | found
  /-- The haystack iterator reached its end before the needle did. -/
  | exhausted
  /-- The predicate failed on a pair of characters. -/
  | mismatch
  deriving DecidableEq, Repr

/-- The inner loop of `std::ranges::search`, from one start position `first1`:
`if (it2 == last2) return {first1, it1}; if (it1 == last1) return {it1, it1};
if (!pred(*it1, *it2)) break;` -/
def searchInner (pred : Char → Char → Bool) : List Char → List Char → InnerResult
  | _, [] => InnerResult.found
  | [], _ :: _ => InnerResult.exhausted
  | h :: hs, n :: ns => if pred h n then searchInner pred hs ns else InnerResult.mismatch

/-- The outer loop of `std::ranges::search`: the offset, from the start of the
haystack, of the `begin()` of the returned subrange. A match at the current start
gives that start; an exhausted haystack gives `{last1, last1}`; after a mismatch
the start moves one character on. On the empty haystack both returns are offset 0. -/
def search (pred : Char → Char → Bool) (needle : List Char) : List Char → Nat
  | [] => 0
  | h :: hs =>
    match searchInner pred (h :: hs) needle with
    | InnerResult.found => 0
    | InnerResult.exhausted => (h :: hs).length
    | InnerResult.mismatch => 1 + search pred needle hs

/-- `eclipse::utils::matchesStringFuzzy`: `it != haystack.end()`, where `it` is
the `begin()` of the subrange found by `std::ranges::search`. -/
def matchesStringFuzzy (haystack needle : String) : Bool :=
  let it := search fuzzyEq needle.data haystack.data
  it != haystack.data.length

/-- Case-insensitive containment as the specification words it: the needle occurs
as a contiguous substring of the haystack when characters are compared after
`toupper`. -/
def containsIgnoreCase (haystack needle : String) : Prop :=
  needle.data.map toupper <:+: haystack.data.map toupper

end eclipse.utils

namespace eclipse.recorder

/-! ## Data model (recorder.cpp) -/

/-- The raw bytes of one frame (`std::vector<uint8_t>`). -/
abbrev Frame := List Nat

/-- A `std::filesystem::path`: whether it has a root directory, and its components. -/
structure Path where
  absolute : Bool
  parts : List String
  deriving DecidableEq, Repr

/-- The member `path::parent_path()`: the path without its last component. -/
def Path.parent_path (p : Path) : Path :=
  { p with parts := p.parts.dropLast }

/-- The operator `path / "name"` for a relative one-component right-hand side. -/
def Path.append (p : Path) (name : String) : Path :=
  { p with parts := p.parts ++ [name] }

/-- The relative path of the raw audio capture, `"fmodoutput.wav"`. -/
def wavPath : Path := { absolute := false, parts := ["fmodoutput.wav"] }

/-- Modelled from the spec: the type `ffmpeg::RenderSettings` is declared in a header
that is not among the sources; the spec lists output width, output height, output
file path, frame rate and codec choice. -/
structure RenderSettings where
  m_width : Nat
  m_height : Nat
  m_fps : Nat
  m_codec : String
  m_outputFile : Path
  deriving DecidableEq, Repr

/-- Modelled from the spec: the class `RenderTexture` (rendertexture.cpp) is not among
the sources. It is the offscreen render target of the spec, with the two size
members that `Recorder::start` assigns and a flag for `begin()` / `end()`. -/
structure RenderTexture where
  m_width : Nat
  m_height : Nat
  active : Bool
  deriving DecidableEq, Repr

/-- Modelled from the spec: `RenderTexture::begin`, which allocates the render
target at the size set in the two members and leaves them as they are. -/
def RenderTexture.begin (t : RenderTexture) : RenderTexture :=
  { t with active := true }

/-- Modelled from the spec: `RenderTexture::end` (a reserved word here, hence the
name), which releases the render target. -/
def RenderTexture.finish (t : RenderTexture) : RenderTexture :=
  { t with active := false }

/-- The two threads that take `m_lock`. -/
inductive Owner where
  | worker
  | producer
  deriving DecidableEq, Repr

/-- The members of `Recorder` that recorder.cpp reads and writes. `m_lock` is the
mutex, `none` when free and `some o` when held by thread `o`. -/
structure Recorder where
  m_renderSettings : RenderSettings
  m_renderTexture : RenderTexture
  m_currentFrame : Frame
  m_recording : Bool
  m_frameHasData : Bool
  m_recordingAudio : Bool
  m_lock : Option Owner
  deriving DecidableEq, Repr

/-- The member `std::vector::resize(n, val)`. -/
def resize (v : Frame) (n : Nat) (val : Nat) : Frame :=
  if n ≤ v.length then v.take n else v ++ List.replicate (n - v.length) val

/-- `Recorder::start` (lines 14-24), the thread launch apart (see `boot`). The size
expression `m_width * m_height * 4` is computed in the unsigned integer type of the
two members, `bits` bits wide: the type is declared outside the sources, so its
width is a parameter. -/
def Recorder.start (bits : Nat) (r : Recorder) : Recorder :=
  let frame := resize r.m_currentFrame
    ((r.m_renderSettings.m_width * r.m_renderSettings.m_height * 4) % 2 ^ bits) 0
  let tex := RenderTexture.begin
    { r.m_renderTexture with
      m_width := r.m_renderSettings.m_width
      m_height := r.m_renderSettings.m_height }
  { r with
    m_currentFrame := frame
    m_renderTexture := tex
    m_recording := true
    m_frameHasData := false }

/-- `Recorder::stop` (lines 26-30). -/
def Recorder.stop (r : Recorder) : Recorder :=
  { r with m_recording := false, m_renderTexture := r.m_renderTexture.finish }

/-! ## The two threads -/

/-- The local `ffmpeg::Recorder` of `recordThread`, seen from outside: whether
`init` and `stop` were called, the frames passed to `writeFrame` in call order, and
what each call returned. -/
structure Encoder where
  initialised : Bool
  frames : List Frame
  results : List Bool
  stopped : Bool
  deriving DecidableEq, Repr

/-- Program points of `Recorder::recordThread` (lines 38-55). -/
inductive WorkerPc where
  /-- Line 41, before `ffmpegRecorder.init`. -/
  | init
  /-- Line 43, before the loop test reads `m_recording`. -/
  | test
  /-- Line 43, `m_recording` was read false, before the test reads `m_frameHasData`. -/
  | testData
  /-- Line 44, before `m_lock.lock()`. -/
  | lock
  /-- Line 46, before `if (m_frameHasData)`. -/
  | check
  /-- Line 47, before `m_frameHasData = false`. -/
  | clear
  /-- Line 48, before `ffmpegRecorder.writeFrame(m_currentFrame)`. -/
  | write
  /-- Line 49, before `m_lock.unlock()` in the then-branch. -/
  | unlockT
  /-- Line 51, before `m_lock.unlock()` in the else-branch. -/
  | unlockF
  /-- Line 54, before `ffmpegRecorder.stop()`. -/
  | finalize
  /-- After line 54: the thread has returned. -/
  | done
  deriving DecidableEq, Repr

/-- Program points of `Recorder::captureFrame` (lines 32-36). The three steps of
`capture` are modelled from the spec, see `captureFrameStep`. -/
inductive ProducerPc where
  /-- Not inside `captureFrame`. -/
  | idle
  /-- Line 33, the loop `while (m_frameHasData) {}`. -/
  | spin
  /-- Line 35, inside `capture`, before it takes `m_lock`. -/
  | capLock
  /-- Inside `capture`, holding `m_lock`, before the copy into the slot. -/
  | capCopy
  /-- Inside `capture`, before it releases `m_lock`. -/
  | capUnlock
  deriving DecidableEq, Repr

/-- The recorder with its two threads. `scene` is what the render target shows,
the bytes the next copy will read. `published` and `stopMark` are history
variables: the frames copied into the slot so far, and the value of `published`
when `stop()` was first called. -/
structure System where
  recorder : Recorder
  worker : WorkerPc
  producer : ProducerPc
  scene : Frame
  encoder : Encoder
  published : List Frame
  stopMark : Option (List Frame)
  deriving DecidableEq, Repr

/-- The state left by `start()`: the members as `Recorder::start` sets them, the
detached thread at the top of `recordThread`, the render loop outside
`captureFrame`, and empty histories. -/
def boot (bits : Nat) (r : Recorder) : System :=
  { recorder := r.start bits
    worker := WorkerPc.init
    producer := ProducerPc.idle
    scene := []
    encoder := { initialised := false, frames := [], results := [], stopped := false }
    published := []
    stopMark := none }

/-- One step of the thread running `recordThread`. `writeOk k f` is what the
`k`-th call (from 0) of `writeFrame`, on frame `f`, returns; the code discards it.
The loop test `m_recording || m_frameHasData` reads its left operand first and the
right one only when the left is false. A thread that cannot move (waiting for the
mutex, or returned) leaves the state as it is. -/
def recordThreadStep (writeOk : Nat → Frame → Bool) (s : System) : System :=
  match s.worker with
  | WorkerPc.init =>
    { s with encoder := { s.encoder with initialised := true }, worker := WorkerPc.test }
  | WorkerPc.test =>
    if s.recorder.m_recording then { s with worker := WorkerPc.lock }
    else { s with worker := WorkerPc.testData }
  | WorkerPc.testData =>
    if s.recorder.m_frameHasData then { s with worker := WorkerPc.lock }
    else { s with worker := WorkerPc.finalize }
  | WorkerPc.lock =>
    match s.recorder.m_lock with
    | none =>
      { s with recorder := { s.recorder with m_lock := some Owner.worker },
               worker := WorkerPc.check }
    | some _ => s
  | WorkerPc.check =>
    if s.recorder.m_frameHasData then { s with worker := WorkerPc.clear }
    else { s with worker := WorkerPc.unlockF }
  | WorkerPc.clear =>
    { s with recorder := { s.recorder with m_frameHasData := false },
             worker := WorkerPc.write }
  | WorkerPc.write =>
    { s with
      encoder :=
        { s.encoder with
          frames := s.encoder.frames ++ [s.recorder.m_currentFrame]
          results := s.encoder.results ++
            [writeOk s.encoder.frames.length s.recorder.m_currentFrame] }
      worker := WorkerPc.unlockT }
  | WorkerPc.unlockT =>
    { s with recorder := { s.recorder with m_lock := none }, worker := WorkerPc.test }
  | WorkerPc.unlockF =>
    { s with recorder := { s.recorder with m_lock := none }, worker := WorkerPc.test }
  | WorkerPc.finalize =>
    { s with encoder := { s.encoder with stopped := true }, worker := WorkerPc.done }
  | WorkerPc.done => s

/-- One step of the thread inside `captureFrame`. The loop of line 33 is from the
source. Modelled from the spec: `RenderTexture::capture` (rendertexture.cpp is not
among the sources) is the `publish` of the spec: under the guard it copies the
bytes into the slot's buffer and sets "has data" true. -/
def captureFrameStep (s : System) : System :=
  match s.producer with
  | ProducerPc.idle => s
  | ProducerPc.spin =>
    if s.recorder.m_frameHasData then s else { s with producer := ProducerPc.capLock }
  | ProducerPc.capLock =>
    match s.recorder.m_lock with
    | none =>
      { s with recorder := { s.recorder with m_lock := some Owner.producer },
               producer := ProducerPc.capCopy }
    | some _ => s
  | ProducerPc.capCopy =>
    { s with
      recorder := { s.recorder with m_currentFrame := s.scene, m_frameHasData := true }
      published := s.published ++ [s.scene]
      producer := ProducerPc.capUnlock }
  | ProducerPc.capUnlock =>
    { s with recorder := { s.recorder with m_lock := none }, producer := ProducerPc.idle }

/-- What the scheduler and the host can do next. -/
inductive Action where
  /-- The render loop calls `captureFrame()` while the render target shows `f`. -/
  | captureFrame (f : Frame)
  /-- The thread inside `captureFrame` takes its next step. -/
  | producer
  /-- The thread running `recordThread` takes its next step. -/
  | worker
  /-- The controller calls `stop()`. -/
  | stop
  deriving DecidableEq, Repr

/-- The step relation, as a function of the chosen action. -/
def step (writeOk : Nat → Frame → Bool) (a : Action) (s : System) : System :=
  match a with
  | Action.captureFrame f =>
    match s.producer with
    | ProducerPc.idle => { s with producer := ProducerPc.spin, scene := f }
    | _ => s
  | Action.producer => captureFrameStep s
  | Action.worker => recordThreadStep writeOk s
  | Action.stop =>
    { s with
      recorder := s.recorder.stop
      stopMark := match s.stopMark with
        | none => some s.published
        | some l => some l }

/-- An interleaving: the actions of a schedule, applied from left to right. -/
def run (writeOk : Nat → Frame → Bool) : List Action → System → System
  | [], s => s
  | a :: as, s => run writeOk as (step writeOk a s)

/-- The contents of a file. -/
abbrev FileData := List Nat

/-- The file system: what each path holds, `none` when no file is there. -/
abbrev FileSystem := Path → Option FileData

/-- The call `std::filesystem::remove(p)`: afterwards nothing is at `p`. -/
def FileSystem.remove (fs : FileSystem) (p : Path) : FileSystem :=
  fun q => if q = p then none else fs q

/-- A file written at `p`. -/
def FileSystem.write (fs : FileSystem) (p : Path) (d : FileData) : FileSystem :=
  fun q => if q = p then some d else fs q

/-- The call `std::filesystem::rename(from, to)`: `none` stands for the
`filesystem_error` thrown when nothing is at `from`; renaming a file to itself
does nothing; otherwise `to` takes the contents and `from` is gone. -/
def FileSystem.rename (fs : FileSystem) (src dst : Path) : Option FileSystem :=
  match fs src with
  | none => none
  | some d => if src = dst then some fs else some ((fs.write dst d).remove src)

/-- The external `ffmpeg::AudioMixer::mixVideoAudio(video, audio, output)`: what it
leaves in the file system and whether it reports success. -/
abbrev Mixer := FileSystem → Path → Path → Path → FileSystem × Bool

/-- The output type of the FMOD system. -/
inductive FmodOutput where
  | autodetect
  | wavWriter
  deriving DecidableEq, Repr

/-- What `stopAudio` reads and writes: the recorder, the FMOD output type and the
file system. -/
structure Host where
  recorder : Recorder
  fmodOutput : FmodOutput
  fs : FileSystem

/-- `Recorder::startAudio` (lines 57-60). -/
def startAudio (h : Host) : Host :=
  { h with
    fmodOutput := FmodOutput.wavWriter
    recorder := { h.recorder with m_recordingAudio := true } }

/-- The temporary path of `stopAudio`, `m_outputFile.parent_path() / "music.mp4"`. -/
def tempPath (r : Recorder) : Path :=
  r.m_renderSettings.m_outputFile.parent_path.append "music.mp4"

/-- `Recorder::stopAudio` (lines 62-75). The result of `mixVideoAudio` is discarded,
as in the source. The Boolean is `false` when `std::filesystem::rename` threw, in
which case the file system stays as the two `remove` calls left it. -/
def stopAudio (mixVideoAudio : Mixer) (h : Host) : Host × Bool :=
  let r := { h.recorder with m_recordingAudio := false }
  let out := r.m_renderSettings.m_outputFile
  let fs1 := (mixVideoAudio h.fs out wavPath (tempPath r)).1
  let fs2 := fs1.remove wavPath
  let fs3 := fs2.remove out
  match fs3.rename (tempPath r) out with
  | some fs4 => ({ recorder := r, fmodOutput := FmodOutput.autodetect, fs := fs4 }, true)
  | none => ({ recorder := r, fmodOutput := FmodOutput.autodetect, fs := fs3 }, false)

/-- A muxer that fails: it reports failure and leaves every file as it was. -/
def failingMixer : Mixer := fun fs _ _ _ => (fs, false)

/-- A muxer that succeeds whenever both inputs exist: it writes the video bytes
followed by the audio bytes to the output path. -/
def mergingMixer : Mixer := fun fs video audio output =>
  match fs video, fs audio with
  | some v, some a => (fs.write output (v ++ a), true)
  | _, _ => (fs, false)

/-! ## Concrete inputs -/

/-- A recorder before `start()`, with 1 x 1 render settings and output `out.mp4`. -/
def sampleRecorder : Recorder :=
  { m_renderSettings :=
      { m_width := 1
        m_height := 1
        m_fps := 60
        m_codec := "libx264"
        m_outputFile := { absolute := false, parts := ["out.mp4"] } }
    m_renderTexture := { m_width := 0, m_height := 0, active := false }
    m_currentFrame := []
    m_recording := false
    m_frameHasData := false
    m_recordingAudio := false
    m_lock := none }

/-- Render settings of 32768 x 32768 pixels. -/
def hugeRecorder : Recorder :=
  { sampleRecorder with
    m_renderSettings := { sampleRecorder.m_renderSettings with m_width := 32768, m_height := 32768 } }

/-- The 1 x 1 RGBA frame of grey level `k`. -/
def pixel (k : Nat) : Frame := [k, k, k, 255]

/-- One full hand-off of frame `f`: the render loop calls `captureFrame`, passes the
spin loop, takes the lock, copies, unlocks; then the worker tests the loop
condition, locks, tests the flag, clears it, calls `writeFrame` and unlocks. -/
def handOff (f : Frame) : List Action :=
  [Action.captureFrame f, Action.producer, Action.producer, Action.producer, Action.producer,
   Action.worker, Action.worker, Action.worker, Action.worker, Action.worker, Action.worker]

/-- The worker initialises the encoder, then six frames are handed off in turn. -/
def sixFrames : List Action :=
  Action.worker :: (handOff (pixel 1) ++ handOff (pixel 2) ++ handOff (pixel 3)
    ++ handOff (pixel 4) ++ handOff (pixel 5) ++ handOff (pixel 6))

/-- An encoder that accepts every frame. -/
def acceptsAll : Nat → Frame → Bool := fun _ _ => true

/-- One frame is published, then the worker runs up to the call of `writeFrame`:
init, loop test, lock, flag test, flag clear. -/
def upToWrite : List Action :=
  [Action.captureFrame (pixel 7), Action.producer, Action.producer, Action.producer,
   Action.producer, Action.worker, Action.worker, Action.worker, Action.worker, Action.worker]

/-- One frame is published and `stop()` is called before the worker has run; then
the worker runs to the end. -/
def stopWithPending : List Action :=
  [Action.captureFrame (pixel 9), Action.producer, Action.producer, Action.producer,
   Action.producer, Action.stop,
   Action.worker, Action.worker, Action.worker, Action.worker, Action.worker, Action.worker,
   Action.worker, Action.worker, Action.worker, Action.worker, Action.worker, Action.worker]

/-- The render loop is about to copy a second frame: one full hand-off, then
`captureFrame` up to the copy. -/
def secondCopy : List Action :=
  Action.worker :: handOff (pixel 1) ++
    [Action.captureFrame (pixel 2), Action.producer, Action.producer]

/-- A host after recording: the video `out.mp4` and the raw audio are present. -/
def sampleHost : Host :=
  { recorder := { sampleRecorder with m_recordingAudio := true }
    fmodOutput := FmodOutput.wavWriter
    fs := fun p =>
      if p = sampleRecorder.m_renderSettings.m_outputFile then some [1, 2, 3]
      else if p = wavPath then some [4, 5]
      else none }

/-- The output path `renders/music.mp4`. -/
def musicPath : Path := { absolute := false, parts := ["renders", "music.mp4"] }

/-- A host after recording whose output file is `renders/music.mp4`. -/
def musicHost : Host :=
  { recorder :=
      { sampleRecorder with
        m_recordingAudio := true
        m_renderSettings := { sampleRecorder.m_renderSettings with m_outputFile := musicPath } }
    fmodOutput := FmodOutput.wavWriter
    fs := fun p =>
      if p = musicPath then some [1, 2, 3]
      else if p = wavPath then some [4, 5]
      else none }

/-! ## The invariant of the hand-off -/

/-- The program points of `recordThread` between `lock()` and `unlock()`. -/
def WorkerPc.holdsLock : WorkerPc → Bool
  | WorkerPc.check => true
  | WorkerPc.clear => true
  | WorkerPc.write => true
  | WorkerPc.unlockT => true
  | WorkerPc.unlockF => true
  | _ => false

/-- The program points of `capture` at which the render loop holds the mutex. -/
def ProducerPc.holdsLock : ProducerPc → Bool
  | ProducerPc.capCopy => true
  | ProducerPc.capUnlock => true
  | _ => false

/-- The invariant of the hand-off. -/
structure Inv (s : System) : Prop where
  lockW : s.recorder.m_lock = some Owner.worker ↔ s.worker.holdsLock = true
  lockP : s.recorder.m_lock = some Owner.producer ↔ s.producer.holdsLock = true
  passed : s.producer = ProducerPc.capLock ∨ s.producer = ProducerPc.capCopy →
    s.recorder.m_frameHasData = false
  clearHas : s.worker = WorkerPc.clear → s.recorder.m_frameHasData = true
  writeNo : s.worker = WorkerPc.write → s.recorder.m_frameHasData = false
  hist : s.published = s.encoder.frames ++
    (if s.worker = WorkerPc.write ∨ s.recorder.m_frameHasData = true
      then [s.recorder.m_currentFrame] else [])
  mark : s.recorder.m_recording = true ↔ s.stopMark = none
  markPrefix : ∀ l, s.stopMark = some l → l <+: s.published
  finStopped : s.worker = WorkerPc.testData ∨ s.worker = WorkerPc.finalize ∨
    s.worker = WorkerPc.done → s.recorder.m_recording = false
  fin : s.worker = WorkerPc.finalize ∨ s.worker = WorkerPc.done →
    ∀ l, s.stopMark = some l → l <+: s.encoder.frames
  stoppedDone : s.encoder.stopped = true → s.worker = WorkerPc.done

end eclipse.recorder

namespace eclipse.utils

/-! ## Theorems: formatTime -/

theorem truncToInt_3600_div_3600 : truncToInt (3600 / 3600) = 1 := by
  norm_num [truncToInt]

theorem truncToInt_3600_div_60 : truncToInt (3600 / 60) = 60 := by
  norm_num [truncToInt]

theorem truncToInt_3600 : truncToInt 3600 = 3600 := by
  norm_num [truncToInt]

theorem truncToInt_3600_mul_1000 : truncToInt (3600 * 1000) = 3600000 := by
  norm_num [truncToInt]

/-- C10 (failing input): at `t = 3600` seconds, one hour exactly, `formatTime`
prints the minutes field as 60, `"1:60:00.000"`, because `minutes` is
`static_cast<int>(time / 60)` without `% 60`; the clock rendering of the claim
is `"1:00:00.000"`. -/
theorem formatTime_one_hour :
    formatTime 3600 = "1:60:00.000" ∧ clockFields 3600 = "1:00:00.000" := by
  constructor
  · unfold formatTime
    rw [truncToInt_3600_div_3600, truncToInt_3600_div_60, truncToInt_3600,
      truncToInt_3600_mul_1000]
    decide
  · have h1 : ⌊(3600 : ℚ) / 3600⌋ = 1 := by norm_num
    have h2 : ⌊(3600 : ℚ) / 60⌋ = 60 := by norm_num
    have h3 : ⌊(3600 : ℚ)⌋ = 3600 := by
      have : ((3600 : ℤ) : ℚ) = 3600 := by norm_num
      rw [← this, Int.floor_intCast]
    have h4 : ⌊(3600 : ℚ) * 1000⌋ = 3600000 := by
      have : ((3600000 : ℤ) : ℚ) = 3600 * 1000 := by norm_num
      rw [← this, Int.floor_intCast]
    unfold clockFields
    rw [h1, h2, h3, h4]
    decide

/-! ## Theorems: matchesStringFuzzy -/

theorem searchInner_found_iff (needle : List Char) :
    ∀ hay : List Char, searchInner fuzzyEq hay needle = InnerResult.found ↔
      needle.map toupper <+: hay.map toupper := by
  induction needle with
  | nil => intro hay; simp [searchInner]
  | cons n ns ih =>
    intro hay
    cases hay with
    | nil => simp [searchInner]
    | cons h hs =>
      simp only [searchInner, List.map_cons, List.cons_prefix_cons]
      by_cases hp : fuzzyEq h n = true
      · have : toupper n = toupper h := by
          simp [fuzzyEq] at hp; exact hp.symm
        simp [hp, ih hs, this]
      · have : ¬ toupper n = toupper h := by
          intro e; apply hp; simp [fuzzyEq, e]
        simp [hp, this]

theorem searchInner_exhausted_length (needle : List Char) :
    ∀ hay : List Char, searchInner fuzzyEq hay needle = InnerResult.exhausted →
      hay.length < needle.length := by
  induction needle with
  | nil => intro hay; simp [searchInner]
  | cons n ns ih =>
    intro hay
    cases hay with
    | nil => simp [searchInner]
    | cons h hs =>
      simp only [searchInner, List.length_cons]
      by_cases hp : fuzzyEq h n = true
      · simp only [hp, if_true]
        intro e
        have := ih hs e
        omega
      · simp [hp]

theorem searchInner_mismatch_ne_nil (needle hay : List Char)
    (h : searchInner fuzzyEq hay needle = InnerResult.mismatch) : needle ≠ [] := by
  intro e
  subst e
  simp [searchInner] at h

theorem search_le_length (needle : List Char) :
    ∀ hay : List Char, search fuzzyEq needle hay ≤ hay.length := by
  intro hay
  induction hay with
  | nil => simp [search]
  | cons h hs ih =>
    simp only [search]
    split
    · simp
    · simp
    · simp only [List.length_cons]; omega

theorem search_lt_length_iff (needle : List Char) :
    ∀ hay : List Char, search fuzzyEq needle hay < hay.length ↔
      (hay ≠ [] ∧ needle.map toupper <:+: hay.map toupper) := by
  intro hay
  induction hay with
  | nil => simp [search]
  | cons h hs ih =>
    simp only [search]
    split
    · rename_i hf
      have := ((searchInner_found_iff needle (h :: hs)).1 hf).isInfix
      simp only [List.length_cons, Nat.zero_lt_succ, ne_eq, reduceCtorEq, not_false_eq_true,
        true_and, true_iff]
      exact this
    · rename_i he
      have hl := searchInner_exhausted_length needle (h :: hs) he
      simp only [lt_self_iff_false, ne_eq, reduceCtorEq, not_false_eq_true, true_and, false_iff]
      intro hin
      have := hin.length_le
      simp at this hl
      omega
    · rename_i hm
      have hne := searchInner_mismatch_ne_nil needle (h :: hs) hm
      have hnp : ¬ (needle.map toupper <+: (h :: hs).map toupper) := by
        rw [← searchInner_found_iff, hm]; simp
      simp only [List.length_cons, ne_eq, reduceCtorEq, not_false_eq_true, true_and]
      rw [show (1 + search fuzzyEq needle hs < hs.length + 1) ↔
        search fuzzyEq needle hs < hs.length by omega, ih]
      rw [List.map_cons, List.infix_cons_iff]
      constructor
      · rintro ⟨_, hi⟩; exact Or.inr hi
      · rintro (hp | hi)
        · exact absurd hp hnp
        · refine ⟨?_, hi⟩
          intro e
          subst e
          simp at hi
          exact hne hi
          
/-- What `matchesStringFuzzy` computes: it returns true exactly when the haystack is
not empty and the needle occurs in it as a contiguous substring, characters
compared after `toupper`. -/
theorem matchesStringFuzzy_iff (haystack needle : String) :
    matchesStringFuzzy haystack needle = true ↔
      (haystack ≠ "" ∧ containsIgnoreCase haystack needle) := by
  have hne : haystack ≠ "" ↔ haystack.data ≠ [] := by
    constructor
    · intro h e; apply h; cases haystack; simp_all
    · intro h e; apply h; subst e; rfl
  unfold matchesStringFuzzy containsIgnoreCase
  rw [hne, ← search_lt_length_iff]
  have := search_le_length needle.data haystack.data
  simp only [bne_iff_ne, ne_eq]
  omega

/-- C9 (failing input): on the empty haystack and the empty needle,
`std::ranges::search` returns the empty subrange at `begin()`, which is `end()`, so
`matchesStringFuzzy` returns false, although the empty needle occurs in the empty
haystack. -/
theorem matchesStringFuzzy_empty_empty :
    matchesStringFuzzy "" "" = false ∧ containsIgnoreCase "" "" := by
  constructor
  · decide
  · simp [containsIgnoreCase]

end eclipse.utils

namespace eclipse.recorder

/-! ## Theorems: the invariant is preserved -/

theorem inv_boot (bits : Nat) (r : Recorder) (hr : r.m_lock = none) : Inv (boot bits r) := by
  constructor <;> simp [boot, Recorder.start, hr, WorkerPc.holdsLock, ProducerPc.holdsLock]

set_option maxHeartbeats 1000000 in
theorem inv_recordThreadStep (writeOk : Nat → Frame → Bool) (s : System) (h : Inv s) :
    Inv (recordThreadStep writeOk s) := by
  obtain ⟨⟨rs, rt, cur, rec, has, ra, lk⟩, w, p, sc, ⟨ei, ef, er, es⟩, pub, sm⟩ := s
  obtain ⟨h1, h2, h3, h4, h5, h6, h7, h8, h9, h10, h11⟩ := h
  simp only at h1 h2 h3 h4 h5 h6 h7 h8 h9 h10 h11
  cases w
  case init =>
    constructor <;> simp_all [recordThreadStep, WorkerPc.holdsLock]
  case test =>
    cases rec <;>
      simp only [recordThreadStep, Bool.false_eq_true, if_true, if_false] <;>
      constructor <;> simp_all [WorkerPc.holdsLock]
  case testData =>
    cases has <;>
      simp only [recordThreadStep, Bool.false_eq_true, if_true, if_false] <;>
      constructor <;> simp_all [WorkerPc.holdsLock]
  case lock =>
    rcases lk with _ | (_ | _) <;> simp only [recordThreadStep] <;>
      constructor <;> simp_all [WorkerPc.holdsLock]
  case check =>
    cases has <;>
      simp only [recordThreadStep, Bool.false_eq_true, if_true, if_false] <;>
      constructor <;> simp_all [WorkerPc.holdsLock]
  case clear =>
    constructor <;> simp_all [recordThreadStep, WorkerPc.holdsLock]
  case write =>
    constructor <;> simp_all [recordThreadStep, WorkerPc.holdsLock]
  case unlockT =>
    constructor <;> simp_all [recordThreadStep, WorkerPc.holdsLock, ProducerPc.holdsLock]
  case unlockF =>
    constructor <;> simp_all [recordThreadStep, WorkerPc.holdsLock, ProducerPc.holdsLock]
  case finalize =>
    constructor <;> simp_all [recordThreadStep, WorkerPc.holdsLock]
  case done =>
    constructor <;> simp_all [recordThreadStep, WorkerPc.holdsLock]

set_option maxHeartbeats 1000000 in
theorem inv_captureFrameStep (s : System) (h : Inv s) : Inv (captureFrameStep s) := by
  obtain ⟨⟨rs, rt, cur, rec, has, ra, lk⟩, w, p, sc, ⟨ei, ef, er, es⟩, pub, sm⟩ := s
  obtain ⟨h1, h2, h3, h4, h5, h6, h7, h8, h9, h10, h11⟩ := h
  simp only at h1 h2 h3 h4 h5 h6 h7 h8 h9 h10 h11
  cases p
  case idle =>
    constructor <;> simp_all [captureFrameStep, ProducerPc.holdsLock]
  case spin =>
    cases has <;>
      simp only [captureFrameStep, Bool.false_eq_true, if_true, if_false] <;>
      constructor <;> simp_all [ProducerPc.holdsLock]
  case capLock =>
    rcases lk with _ | (_ | _) <;> simp only [captureFrameStep] <;>
      constructor <;> simp_all [ProducerPc.holdsLock]
  case capCopy =>
    have hw : w.holdsLock = false := by
      cases hwl : w.holdsLock
      · rfl
      · have := h1.2 hwl
        have := h2.2 rfl
        simp_all
    have hhas : has = false := h3 (Or.inr rfl)
    subst hhas
    have hnw : w ≠ WorkerPc.write := by
      intro e; subst e; simp [WorkerPc.holdsLock] at hw
    have hnc : w ≠ WorkerPc.clear := by
      intro e; subst e; simp [WorkerPc.holdsLock] at hw
    constructor <;> simp_all [captureFrameStep, ProducerPc.holdsLock]
    · intro l hl
      exact (h8 l hl).trans (List.prefix_append _ _)
  case capUnlock =>
    constructor <;> simp_all [captureFrameStep, WorkerPc.holdsLock, ProducerPc.holdsLock]

set_option maxHeartbeats 1000000 in
theorem inv_step (writeOk : Nat → Frame → Bool) (a : Action) (s : System) (h : Inv s) :
    Inv (step writeOk a s) := by
  cases a with
  | producer => exact inv_captureFrameStep s h
  | worker => exact inv_recordThreadStep writeOk s h
  | captureFrame f =>
    obtain ⟨⟨rs, rt, cur, rec, has, ra, lk⟩, w, p, sc, ⟨ei, ef, er, es⟩, pub, sm⟩ := s
    obtain ⟨h1, h2, h3, h4, h5, h6, h7, h8, h9, h10, h11⟩ := h
    simp only at h1 h2 h3 h4 h5 h6 h7 h8 h9 h10 h11
    cases p <;> simp only [step] <;> constructor <;> simp_all [ProducerPc.holdsLock]
  | stop =>
    obtain ⟨⟨rs, rt, cur, rec, has, ra, lk⟩, w, p, sc, ⟨ei, ef, er, es⟩, pub, sm⟩ := s
    obtain ⟨h1, h2, h3, h4, h5, h6, h7, h8, h9, h10, h11⟩ := h
    simp only at h1 h2 h3 h4 h5 h6 h7 h8 h9 h10 h11
    cases sm <;> simp only [step, Recorder.stop] <;> constructor <;> simp_all

theorem inv_run (writeOk : Nat → Frame → Bool) (acts : List Action) :
    ∀ s : System, Inv s → Inv (run writeOk acts s) := by
  induction acts with
  | nil => intro s h; exact h
  | cons a as ih => intro s h; exact ih _ (inv_step writeOk a s h)

theorem inv_reachable (writeOk : Nat → Frame → Bool) (bits : Nat) (r : Recorder)
    (hr : r.m_lock = none) (acts : List Action) : Inv (run writeOk acts (boot bits r)) :=
  inv_run writeOk acts _ (inv_boot bits r hr)

/-! ## Theorems: the frame slot -/

/-- C1: for every interleaving of the render loop, the worker and `stop()`, from the
state left by `start()`, the frames passed to `writeFrame` are a prefix of the frames
published, in the same order, and at most one published frame is not yet written. -/
theorem written_prefix_of_published (writeOk : Nat → Frame → Bool) (bits : Nat)
    (r : Recorder) (hr : r.m_lock = none) (acts : List Action) :
    (run writeOk acts (boot bits r)).encoder.frames <+:
        (run writeOk acts (boot bits r)).published ∧
      (run writeOk acts (boot bits r)).published.length ≤
        (run writeOk acts (boot bits r)).encoder.frames.length + 1 := by
  have h := inv_reachable writeOk bits r hr acts
  constructor
  · rw [h.hist]; exact List.prefix_append _ _
  · rw [h.hist, List.length_append]
    split <;> simp

theorem written_prefix_of_published_witness :
    sampleRecorder.m_lock = none ∧
      (run acceptsAll upToWrite (boot 32 sampleRecorder)).encoder.frames <+:
        (run acceptsAll upToWrite (boot 32 sampleRecorder)).published ∧
      (run acceptsAll upToWrite (boot 32 sampleRecorder)).published.length ≤
        (run acceptsAll upToWrite (boot 32 sampleRecorder)).encoder.frames.length + 1 :=
  ⟨rfl, written_prefix_of_published acceptsAll 32 sampleRecorder rfl upToWrite⟩

theorem publish_step (writeOk : Nat → Frame → Bool) (a : Action) (s : System)
    (h : (step writeOk a s).recorder.m_currentFrame ≠ s.recorder.m_currentFrame ∨
      (step writeOk a s).published ≠ s.published) :
    a = Action.producer ∧ s.producer = ProducerPc.capCopy := by
  obtain ⟨⟨rs, rt, cur, rec, has, ra, lk⟩, w, p, sc, ⟨ei, ef, er, es⟩, pub, sm⟩ := s
  cases a with
  | captureFrame f => cases p <;> simp [step] at h
  | stop => simp [step, Recorder.stop] at h
  | worker =>
    exfalso
    cases w <;> cases rec <;> cases has <;> rcases lk with _ | (_ | _) <;>
      simp [step, recordThreadStep] at h
  | producer =>
    refine ⟨rfl, ?_⟩
    cases p <;> cases has <;> rcases lk with _ | (_ | _) <;>
      simp [step, captureFrameStep] at h ⊢

/-- C2: in every reachable state, a step that writes a new frame into
`m_currentFrame` (the copy inside `captureFrame`) is taken only when
`m_frameHasData` is false, and then every frame published so far has already been
passed to `writeFrame`: no unconsumed frame is overwritten. -/
theorem capture_never_overwrites (writeOk : Nat → Frame → Bool) (bits : Nat)
    (r : Recorder) (hr : r.m_lock = none) (acts : List Action) (a : Action)
    (hw : (step writeOk a (run writeOk acts (boot bits r))).recorder.m_currentFrame ≠
        (run writeOk acts (boot bits r)).recorder.m_currentFrame ∨
      (step writeOk a (run writeOk acts (boot bits r))).published ≠
        (run writeOk acts (boot bits r)).published) :
    (run writeOk acts (boot bits r)).recorder.m_frameHasData = false ∧
      (run writeOk acts (boot bits r)).encoder.frames =
        (run writeOk acts (boot bits r)).published := by
  have h := inv_reachable writeOk bits r hr acts
  obtain ⟨-, hp⟩ := publish_step writeOk a _ hw
  have hhas := h.passed (Or.inr hp)
  have hl : (run writeOk acts (boot bits r)).recorder.m_lock = some Owner.producer :=
    h.lockP.2 (by rw [hp]; rfl)
  have hnw : (run writeOk acts (boot bits r)).worker ≠ WorkerPc.write := by
    intro e
    have := h.lockW.2 (by rw [e]; rfl)
    rw [hl] at this
    cases this
  refine ⟨hhas, ?_⟩
  rw [h.hist, hhas]
  simp [hnw]

theorem capture_never_overwrites_witness :
    sampleRecorder.m_lock = none ∧
      ((step acceptsAll Action.producer
            (run acceptsAll secondCopy (boot 32 sampleRecorder))).recorder.m_currentFrame ≠
          (run acceptsAll secondCopy (boot 32 sampleRecorder)).recorder.m_currentFrame ∨
        (step acceptsAll Action.producer
            (run acceptsAll secondCopy (boot 32 sampleRecorder))).published ≠
          (run acceptsAll secondCopy (boot 32 sampleRecorder)).published) ∧
      (run acceptsAll secondCopy (boot 32 sampleRecorder)).recorder.m_frameHasData = false ∧
      (run acceptsAll secondCopy (boot 32 sampleRecorder)).encoder.frames =
        (run acceptsAll secondCopy (boot 32 sampleRecorder)).published :=
  ⟨rfl, by decide,
    capture_never_overwrites acceptsAll 32 sampleRecorder rfl secondCopy Action.producer
      (by decide)⟩

theorem enter_finalize (writeOk : Nat → Frame → Bool) (a : Action) (s : System)
    (hn : s.worker ≠ WorkerPc.finalize)
    (hf : (step writeOk a s).worker = WorkerPc.finalize) :
    a = Action.worker ∧ s.worker = WorkerPc.testData ∧ s.recorder.m_frameHasData = false := by
  obtain ⟨⟨rs, rt, cur, rec, has, ra, lk⟩, w, p, sc, ⟨ei, ef, er, es⟩, pub, sm⟩ := s
  cases a with
  | captureFrame f => cases p <;> simp_all [step]
  | stop => simp_all [step]
  | producer =>
    cases p <;> cases has <;> rcases lk with _ | (_ | _) <;> simp_all [step, captureFrameStep]
  | worker =>
    refine ⟨rfl, ?_⟩
    cases w <;> cases rec <;> cases has <;> rcases lk with _ | (_ | _) <;>
      simp_all [step, recordThreadStep]

/-- C6: in every run of `recordThread`, the worker comes to `ffmpegRecorder.stop()`
only by a loop test that reads `m_frameHasData` false in a state where `m_recording`
is false too; a loop test in a state where `m_recording` is true or a frame is
pending does not leave the loop; and once the worker is at `ffmpegRecorder.stop()`
or past it, `stop()` has been called and every frame published before that call
has been passed to `writeFrame`. -/
theorem finalize_only_when_stopped_and_empty (writeOk : Nat → Frame → Bool) (bits : Nat)
    (r : Recorder) (hr : r.m_lock = none) (acts : List Action) :
    (∀ a : Action, (run writeOk acts (boot bits r)).worker ≠ WorkerPc.finalize →
        (step writeOk a (run writeOk acts (boot bits r))).worker = WorkerPc.finalize →
        a = Action.worker ∧
          (run writeOk acts (boot bits r)).recorder.m_recording = false ∧
          (run writeOk acts (boot bits r)).recorder.m_frameHasData = false) ∧
      (((run writeOk acts (boot bits r)).worker = WorkerPc.test ∨
          (run writeOk acts (boot bits r)).worker = WorkerPc.testData) →
        ((run writeOk acts (boot bits r)).recorder.m_recording = true ∨
          (run writeOk acts (boot bits r)).recorder.m_frameHasData = true) →
        (step writeOk Action.worker (run writeOk acts (boot bits r))).worker ≠
          WorkerPc.finalize) ∧
      (((run writeOk acts (boot bits r)).worker = WorkerPc.finalize ∨
          (run writeOk acts (boot bits r)).encoder.stopped = true) →
        ∃ l, (run writeOk acts (boot bits r)).stopMark = some l ∧
          l <+: (run writeOk acts (boot bits r)).encoder.frames) := by
  have h := inv_reachable writeOk bits r hr acts
  refine ⟨?_, ?_, ?_⟩
  · intro a hn hf
    obtain ⟨ha, hw, hd⟩ := enter_finalize writeOk a _ hn hf
    exact ⟨ha, h.finStopped (Or.inl hw), hd⟩
  · intro hw hc hf
    have hn : (run writeOk acts (boot bits r)).worker ≠ WorkerPc.finalize := by
      rcases hw with hw | hw <;> rw [hw] <;> decide
    obtain ⟨-, hw2, hd⟩ := enter_finalize writeOk _ _ hn hf
    have hrec := h.finStopped (Or.inl hw2)
    rcases hc with hc | hc
    · rw [hrec] at hc; cases hc
    · rw [hd] at hc; cases hc
  · intro hw
    have hw2 : (run writeOk acts (boot bits r)).worker = WorkerPc.finalize ∨
        (run writeOk acts (boot bits r)).worker = WorkerPc.done := by
      rcases hw with hw | hw
      · exact Or.inl hw
      · exact Or.inr (h.stoppedDone hw)
    have hrec := h.finStopped (Or.inr hw2)
    cases hm : (run writeOk acts (boot bits r)).stopMark with
    | none =>
      have := h.mark.2 hm
      rw [hrec] at this
      cases this
    | some l => exact ⟨l, rfl, h.fin hw2 l hm⟩

theorem finalize_only_when_stopped_and_empty_witness :
    sampleRecorder.m_lock = none ∧
      (run acceptsAll stopWithPending (boot 32 sampleRecorder)).encoder.stopped = true ∧
      ∃ l, (run acceptsAll stopWithPending (boot 32 sampleRecorder)).stopMark = some l ∧
        l <+: (run acceptsAll stopWithPending (boot 32 sampleRecorder)).encoder.frames :=
  ⟨rfl, by decide,
    (finalize_only_when_stopped_and_empty acceptsAll 32 sampleRecorder rfl
      stopWithPending).2.2 (Or.inr (by decide))⟩

theorem length_resize (v : Frame) (n val : Nat) : (resize v n val).length = n := by
  unfold resize
  split
  · rw [List.length_take]; omega
  · rw [List.length_append, List.length_replicate]; omega

/-- C8 (counterexample): after one frame is published and the worker has run up to
line 48, the worker is about to call `writeFrame`, it holds `m_lock`, and its next
step is the call, which passes the published frame to the encoder. -/
theorem writeFrame_called_with_lock_held :
    (run acceptsAll upToWrite (boot 32 sampleRecorder)).worker = WorkerPc.write ∧
      (run acceptsAll upToWrite (boot 32 sampleRecorder)).recorder.m_lock =
        some Owner.worker ∧
      (run acceptsAll upToWrite (boot 32 sampleRecorder)).encoder.frames = [] ∧
      (step acceptsAll Action.worker
        (run acceptsAll upToWrite (boot 32 sampleRecorder))).encoder.frames = [pixel 7] := by
  decide

/-- C8 (amended): in every reachable state the worker holds `m_lock` exactly at the
program points from `lock()` (line 44) to the `unlock()` of the same iteration; in
particular `writeFrame` is called only in a state where the worker holds `m_lock`. -/
theorem writeFrame_only_with_lock_held (writeOk : Nat → Frame → Bool) (bits : Nat)
    (r : Recorder) (hr : r.m_lock = none) (acts : List Action) :
    ((run writeOk acts (boot bits r)).worker = WorkerPc.write →
        (run writeOk acts (boot bits r)).recorder.m_lock = some Owner.worker) ∧
      ((run writeOk acts (boot bits r)).recorder.m_lock = some Owner.worker ↔
        (run writeOk acts (boot bits r)).worker.holdsLock = true) := by
  have h := inv_reachable writeOk bits r hr acts
  refine ⟨?_, h.lockW⟩
  intro hw
  exact h.lockW.2 (by rw [hw]; rfl)

theorem writeFrame_only_with_lock_held_witness :
    sampleRecorder.m_lock = none ∧
      (run acceptsAll sixFrames (boot 32 sampleRecorder)).recorder.m_lock ≠
        some Owner.worker ∧
      (run acceptsAll sixFrames (boot 32 sampleRecorder)).worker.holdsLock ≠ true :=
  ⟨rfl, by decide,
    fun hl => absurd
      ((writeFrame_only_with_lock_held acceptsAll 32 sampleRecorder rfl sixFrames).2.2 hl)
      (by decide)⟩

/-- C7 (counterexample): with 32-bit size arithmetic and render settings of
32768 x 32768, `m_width * m_height * 4` wraps to 0 and `start()` leaves the slot
buffer empty, not `w * h * 4 = 4294967296` bytes long. -/
theorem start_buffer_size_wraps :
    (hugeRecorder.start 32).m_currentFrame.length = 0 ∧
      hugeRecorder.m_renderSettings.m_width * hugeRecorder.m_renderSettings.m_height * 4 =
        4294967296 := by
  decide

/-- C7 (amended): for every render settings whose `w * h * 4` fits the unsigned
integer type of the size expression, after `start()` the slot buffer has exactly
`w * h * 4` bytes, the render texture has width `w` and height `h`, the slot is
empty, `m_recording` is true, and the render settings are unchanged. -/
theorem start_postcondition (bits : Nat) (r : Recorder)
    (hfit : r.m_renderSettings.m_width * r.m_renderSettings.m_height * 4 < 2 ^ bits) :
    (r.start bits).m_currentFrame.length =
        r.m_renderSettings.m_width * r.m_renderSettings.m_height * 4 ∧
      (r.start bits).m_renderTexture.m_width = r.m_renderSettings.m_width ∧
      (r.start bits).m_renderTexture.m_height = r.m_renderSettings.m_height ∧
      (r.start bits).m_frameHasData = false ∧
      (r.start bits).m_recording = true ∧
      (r.start bits).m_renderSettings = r.m_renderSettings := by
  refine ⟨?_, rfl, rfl, rfl, rfl, rfl⟩
  simp only [Recorder.start, length_resize]
  exact Nat.mod_eq_of_lt hfit

theorem start_postcondition_witness :
    sampleRecorder.m_renderSettings.m_width * sampleRecorder.m_renderSettings.m_height * 4
        < 2 ^ 32 ∧
      (sampleRecorder.start 32).m_currentFrame.length =
        sampleRecorder.m_renderSettings.m_width *
          sampleRecorder.m_renderSettings.m_height * 4 ∧
      (sampleRecorder.start 32).m_renderTexture.m_width =
        sampleRecorder.m_renderSettings.m_width ∧
      (sampleRecorder.start 32).m_renderTexture.m_height =
        sampleRecorder.m_renderSettings.m_height ∧
      (sampleRecorder.start 32).m_frameHasData = false ∧
      (sampleRecorder.start 32).m_recording = true ∧
      (sampleRecorder.start 32).m_renderSettings = sampleRecorder.m_renderSettings :=
  ⟨by decide, start_postcondition 32 sampleRecorder (by decide)⟩

/-! ## Theorems: audio post-processing -/

theorem tempPath_ne_wavPath (r : Recorder) : tempPath r ≠ wavPath := by
  intro h
  have hp : (tempPath r).parts.getLast? = wavPath.parts.getLast? := by rw [h]
  simp [tempPath, Path.append, wavPath] at hp

/-- C3 (counterexample): the video `out.mp4` and the raw audio `fmodoutput.wav` are
present, the muxer fails and leaves every file as it was; after `stopAudio()` both
files are gone and `rename` has thrown for want of the temporary file. -/
theorem stopAudio_failed_mux_deletes_files :
    sampleHost.fs sampleHost.recorder.m_renderSettings.m_outputFile = some [1, 2, 3] ∧
      sampleHost.fs wavPath = some [4, 5] ∧
      (failingMixer sampleHost.fs sampleHost.recorder.m_renderSettings.m_outputFile wavPath
        (tempPath sampleHost.recorder)).2 = false ∧
      (stopAudio failingMixer sampleHost).1.fs
        sampleHost.recorder.m_renderSettings.m_outputFile = none ∧
      (stopAudio failingMixer sampleHost).1.fs wavPath = none ∧
      (stopAudio failingMixer sampleHost).2 = false := by
  decide

/-- C3 (amended): `stopAudio()` discards the muxer's result and performs both
`remove` steps whatever it was: if the muxer fails, leaving the file system as it
was with nothing at the temporary path, then after `stopAudio()` neither the raw
audio file nor the video output file exists, and the `rename` step is attempted
and throws. -/
theorem stopAudio_failed_mux (mixVideoAudio : Mixer) (h : Host)
    (hfail : mixVideoAudio h.fs h.recorder.m_renderSettings.m_outputFile wavPath
      (tempPath h.recorder) = (h.fs, false))
    (htemp : h.fs (tempPath h.recorder) = none) :
    (stopAudio mixVideoAudio h).1.fs wavPath = none ∧
      (stopAudio mixVideoAudio h).1.fs h.recorder.m_renderSettings.m_outputFile = none ∧
      (stopAudio mixVideoAudio h).2 = false := by
  have htp : tempPath { h.recorder with m_recordingAudio := false } = tempPath h.recorder := rfl
  have hren : ((h.fs.remove wavPath).remove h.recorder.m_renderSettings.m_outputFile).rename
      (tempPath h.recorder) h.recorder.m_renderSettings.m_outputFile = none := by
    unfold FileSystem.rename
    have : ((h.fs.remove wavPath).remove h.recorder.m_renderSettings.m_outputFile)
        (tempPath h.recorder) = none := by
      simp only [FileSystem.remove]
      split
      · rfl
      · split
        · rfl
        · exact htemp
    rw [this]
  simp only [stopAudio, htp, hfail, hren]
  refine ⟨?_, ?_, trivial⟩
  · simp only [FileSystem.remove]
    split
    · rfl
    · simp
  · simp [FileSystem.remove]

theorem stopAudio_failed_mux_witness :
    failingMixer sampleHost.fs sampleHost.recorder.m_renderSettings.m_outputFile wavPath
        (tempPath sampleHost.recorder) = (sampleHost.fs, false) ∧
      sampleHost.fs (tempPath sampleHost.recorder) = none ∧
      (stopAudio failingMixer sampleHost).1.fs wavPath = none ∧
      (stopAudio failingMixer sampleHost).1.fs
        sampleHost.recorder.m_renderSettings.m_outputFile = none ∧
      (stopAudio failingMixer sampleHost).2 = false :=
  ⟨rfl, by decide, stopAudio_failed_mux failingMixer sampleHost rfl (by decide)⟩

/-- C4 (failing input): the output file is `renders/music.mp4`, so the temporary
path `parent_path() / "music.mp4"` is the output path itself. The muxer succeeds
and writes the merged result there; `stopAudio()` then removes it and `rename`
throws: the output path holds nothing afterwards. -/
theorem stopAudio_temp_collision :
    tempPath musicHost.recorder = musicHost.recorder.m_renderSettings.m_outputFile ∧
      mergingMixer musicHost.fs musicPath wavPath (tempPath musicHost.recorder) =
        (musicHost.fs.write musicPath [1, 2, 3, 4, 5], true) ∧
      (stopAudio mergingMixer musicHost).1.fs musicPath = none ∧
      (stopAudio mergingMixer musicHost).2 = false := by
  refine ⟨by decide, by rfl, by decide, by decide⟩

/-- When the output path is neither the temporary path nor the raw audio path and
the muxer writes a merged result to the temporary path, `stopAudio()` leaves the
merged result at the output path, removes the raw audio and the temporary file,
and keeps the render settings. -/
theorem stopAudio_success (mixVideoAudio : Mixer) (h : Host) (merged : FileData)
    (hmix : mixVideoAudio h.fs h.recorder.m_renderSettings.m_outputFile wavPath
      (tempPath h.recorder) = (h.fs.write (tempPath h.recorder) merged, true))
    (hto : tempPath h.recorder ≠ h.recorder.m_renderSettings.m_outputFile)
    (hwo : h.recorder.m_renderSettings.m_outputFile ≠ wavPath) :
    (stopAudio mixVideoAudio h).1.fs h.recorder.m_renderSettings.m_outputFile = some merged ∧
      (stopAudio mixVideoAudio h).1.fs wavPath = none ∧
      (stopAudio mixVideoAudio h).1.fs (tempPath h.recorder) = none ∧
      (stopAudio mixVideoAudio h).1.recorder.m_renderSettings = h.recorder.m_renderSettings ∧
      (stopAudio mixVideoAudio h).2 = true := by
  have htp : tempPath { h.recorder with m_recordingAudio := false } = tempPath h.recorder := rfl
  have htw := tempPath_ne_wavPath h.recorder
  have hsrc : (((h.fs.write (tempPath h.recorder) merged).remove wavPath).remove
      h.recorder.m_renderSettings.m_outputFile) (tempPath h.recorder) = some merged := by
    simp [FileSystem.remove, FileSystem.write, hto, htw]
  have hren : (((h.fs.write (tempPath h.recorder) merged).remove wavPath).remove
      h.recorder.m_renderSettings.m_outputFile).rename (tempPath h.recorder)
        h.recorder.m_renderSettings.m_outputFile =
      some (((((h.fs.write (tempPath h.recorder) merged).remove wavPath).remove
        h.recorder.m_renderSettings.m_outputFile).write
          h.recorder.m_renderSettings.m_outputFile merged).remove (tempPath h.recorder)) := by
    unfold FileSystem.rename
    rw [hsrc]
    simp [hto]
  simp only [stopAudio, htp, hmix, hren]
  refine ⟨?_, ?_, ?_, trivial, trivial⟩
  · simp [FileSystem.remove, FileSystem.write, Ne.symm hto]
  · simp [FileSystem.remove, FileSystem.write, Ne.symm htw, Ne.symm hwo]
  · simp [FileSystem.remove, FileSystem.write]

theorem stopAudio_success_witness :
    (stopAudio mergingMixer sampleHost).1.fs
        sampleHost.recorder.m_renderSettings.m_outputFile = some [1, 2, 3, 4, 5] ∧
      (stopAudio mergingMixer sampleHost).1.fs wavPath = none ∧
      (stopAudio mergingMixer sampleHost).1.fs (tempPath sampleHost.recorder) = none ∧
      (stopAudio mergingMixer sampleHost).1.recorder.m_renderSettings =
        sampleHost.recorder.m_renderSettings ∧
      (stopAudio mergingMixer sampleHost).2 = true :=
  stopAudio_success mergingMixer sampleHost [1, 2, 3, 4, 5] (by rfl) (by decide) (by decide)

end eclipse.recorder
